import Mathlib

/-!
Verification development for the `sentinel` evidentiary-supervision pipeline.

The definitions below are a shallow embedding of the Python sources:

* `sentinel/evidence/graph.py`   — `EvidenceGraph`, `add_claim`, `add_evidence`,
  `link_support`, `uncovered_claims`
* `sentinel/evidence/claims.py`  — `extract_claims_from_artifact`
* `sentinel/evidence/bind.py`    — `_extract_keywords`, `_keyword_overlap`, `bind_evidence`
* `sentinel/boundaries/detect.py`— `detect_boundaries`
* `sentinel/interventions/policy.py` — `Supervisor.analyze_step`
* `sentinel/core/hook.py`        — `SupervisorHook._bind_evidence`

Modelling conventions:

* Python dicts that are used as insertion-ordered maps become association
  lists with dict update semantics (`dictInsert` keeps the position of an
  existing key and replaces its value, exactly like CPython dicts).
* Python floats appearing in the code (`0.2`, `0.3`, and the Jaccard score
  `len/len`) are modelled as exact rationals.  All scores are rationals with
  denominators bounded by the keyword-set sizes, far away from the
  `float(0.2)`/`float(0.3)` rounding error, so the comparison semantics agree.
* Text processing is modelled over ASCII: `str.lower`, `\w`, `\s` and `\d`
  agree with the Lean counterparts on ASCII input.
* The filesystem is a parameter: `String → Option String` maps a path to the
  content of an existing readable file (used by the boundary detector), and
  the richer `FileState` distinguishes missing from unreadable files where
  the error behaviour of `extract_claims_from_artifact` is at issue.
* Fallible code returns `Except`; appending events to the trace store is an
  external effect (timestamps are wall-clock) and is not part of the state
  modelled here; the supervisor state keeps the counter and the intervention
  history that the policy itself reads and writes.
-/

namespace Sentinel

/-- Event kinds, from `sentinel/trace/schema.py` (`EventType`, a closed string
enum; `use_enum_values` makes `.type` the corresponding string). -/
inductive EventType where
  | tool_call
  | observation
  | artifact
  | decision
  | intervention
  | escalation_packet
  | llm_call
deriving DecidableEq, Repr

/-- A Python payload value as inspected by `bind_evidence`: `None`, a dict
(modelled as an association list of string keys to the `str()` rendering of
the stored value — only string renderings are ever read), or some other
value of which only truthiness is observable. -/
inductive PyVal where
  | pnone
  | pdict (entries : List (String × String))
  | pother (truthy : Bool)
deriving DecidableEq, Repr

/-- Python truthiness for the payload values above (a dict is truthy iff
non-empty). -/
def PyVal.isTruthy : PyVal → Bool
  | .pnone => false
  | .pdict entries => !entries.isEmpty
  | .pother t => t

/-- The payload fields read by the core pipeline: `payload.get("result")`,
`payload.get("data")` (in `bind_evidence`) and `payload.get("path")`
(in `detect_boundaries`).  An absent key is `pnone` / `none`. -/
structure Payload where
  result : PyVal
  data : PyVal
  path : Option String
deriving DecidableEq, Repr

/-- A payload with none of the inspected keys present. -/
def Payload.empty : Payload := ⟨.pnone, .pnone, none⟩

/-- A trace event (`sentinel/trace/schema.py`, `Event`). -/
structure Event where
  type : EventType
  ts : String
  payload : Payload
deriving DecidableEq, Repr

/-- A claim (`sentinel/evidence/claims.py`, dataclass `Claim`).  The Python
field `section` is spelled `sectionName` because `section` is reserved in
Lean. -/
structure Claim where
  id : String
  text : String
  sectionName : String
  severity : String
  source_line : Nat
  artifact_path : String
deriving DecidableEq, Repr

/-- Evidence (`sentinel/evidence/graph.py`, dataclass `Evidence`). -/
structure Evidence where
  id : String
  snippet : String
  source_ref : String
  source_type : String
deriving DecidableEq, Repr

/-- A graph edge (`sentinel/evidence/graph.py`, dataclass `Edge`). -/
structure Edge where
  type : String
  from_id : String
  to_id : String
deriving DecidableEq, Repr

/-! ### Insertion-ordered string-keyed maps (CPython dict semantics) -/

/-- Python `k in d` for a Python dict modelled as an association list. -/
def dictContains (m : List (String × α)) (k : String) : Bool :=
  m.any (fun p => p.1 == k)

/-- Python `d[k] = v`: replaces the value in place if the key exists (keeping its
position), otherwise appends at the end — CPython dict assignment. -/
def dictInsert (m : List (String × α)) (k : String) (v : α) : List (String × α) :=
  if dictContains m k then
    m.map (fun p => if p.1 == k then (k, v) else p)
  else
    m ++ [(k, v)]

/-- Python `d.get(k)`. -/
def dictLookup (m : List (String × α)) (k : String) : Option α :=
  (m.find? (fun p => p.1 == k)).map Prod.snd

/-- Python `d.values()` in insertion order. -/
def dictValues (m : List (String × α)) : List α :=
  m.map Prod.snd

/-! ### The evidence graph (`sentinel/evidence/graph.py`) -/

/-- Python `EvidenceGraph.__init__`: two insertion-ordered maps and an edge list. -/
structure EvidenceGraph where
  claims : List (String × Claim)
  evidence : List (String × Evidence)
  edges : List Edge
deriving DecidableEq, Repr

/-- The empty graph. -/
def EvidenceGraph.empty : EvidenceGraph := ⟨[], [], []⟩

/-- Python `EvidenceGraph.add_claim`. -/
def EvidenceGraph.add_claim (g : EvidenceGraph) (c : Claim) : EvidenceGraph :=
  ⟨dictInsert g.claims c.id c, g.evidence, g.edges⟩

/-- Python `EvidenceGraph.add_evidence`. -/
def EvidenceGraph.add_evidence (g : EvidenceGraph) (ev : Evidence) : EvidenceGraph :=
  ⟨g.claims, dictInsert g.evidence ev.id ev, g.edges⟩

/-- Is `e` the `supports` edge from `evidenceId` to `claimId`? -/
def isSupportsEdge (evidenceId claimId : String) (e : Edge) : Bool :=
  e.type == "supports" && e.from_id == evidenceId && e.to_id == claimId

/-- Python `EvidenceGraph.link_support`: silently ignore unknown endpoints, skip if
the `supports` edge already exists, otherwise append it. -/
def EvidenceGraph.link_support (g : EvidenceGraph) (claimId evidenceId : String) :
    EvidenceGraph :=
  if !dictContains g.claims claimId then g
  else if !dictContains g.evidence evidenceId then g
  else if g.edges.any (isSupportsEdge evidenceId claimId) then g
  else ⟨g.claims, g.evidence, g.edges ++ [⟨"supports", evidenceId, claimId⟩]⟩

/-- Python `severity_order.get(s, default)` where
`severity_order = {"HIGH": 3, "MEDIUM": 2, "LOW": 1}`. -/
def severityOrderGet (s : String) (default : Nat) : Nat :=
  if s == "HIGH" then 3
  else if s == "MEDIUM" then 2
  else if s == "LOW" then 1
  else default

/-- Does some `supports` edge of `g` target claim id `cid`?
(The coverage test inside `uncovered_claims`.) -/
def EvidenceGraph.hasSupport (g : EvidenceGraph) (cid : String) : Bool :=
  g.edges.any (fun e => e.type == "supports" && e.to_id == cid)

/-- Python `EvidenceGraph.uncovered_claims`. -/
def EvidenceGraph.uncovered_claims (g : EvidenceGraph) (minSeverity : String) :
    List Claim :=
  let minLevel := severityOrderGet minSeverity 1
  (dictValues g.claims).filter (fun c =>
    decide (minLevel ≤ severityOrderGet c.severity 0) && !g.hasSupport c.id)

/-! ### Keyword extraction and Jaccard scoring (`sentinel/evidence/bind.py`) -/

/-- A `\w` character (ASCII): letters, digits, underscore. -/
def isWordChar (c : Char) : Bool :=
  c.isAlphanum || c == '_'

/-- Splits a character list into the maximal runs of word characters —
`re.findall(r"\b\w+\b", ...)`.  `cur` is the current run, reversed. -/
def tokenizeAux : List Char → List Char → List String
  | [], cur => if cur.isEmpty then [] else [String.mk cur.reverse]
  | c :: rest, cur =>
    if isWordChar c then tokenizeAux rest (c :: cur)
    else if cur.isEmpty then tokenizeAux rest []
    else String.mk cur.reverse :: tokenizeAux rest []

/-- All `\w+` tokens of a string, in order. -/
def tokenize (s : String) : List String :=
  tokenizeAux s.toList []

/-- Python `str.lower()` (ASCII). -/
def pyLower (s : String) : String :=
  String.mk (s.data.map Char.toLower)

/-- The Python slice `s[:n]`. -/
def strTake (s : String) (n : Nat) : String :=
  String.mk (s.data.take n)

/-- Python `str.split(sep)` for a one-character separator. -/
def splitOnChar (sep : Char) : List Char → List Char → List (List Char)
  | [], cur => [cur.reverse]
  | c :: rest, cur =>
    if c == sep then cur.reverse :: splitOnChar sep rest []
    else splitOnChar sep rest (c :: cur)

/-- The stopword list of `_extract_keywords`. -/
def stopwords : List String :=
  ["the", "a", "an", "and", "or", "but", "in", "on", "at", "to", "for", "of",
   "with", "by", "is", "are", "was", "were", "be", "been", "have", "has",
   "had", "do", "does", "did", "will", "would", "should", "could", "may",
   "might", "must", "can"]

/-- Python `_extract_keywords`: lowercase, tokenize on `\w+`, keep tokens longer
than 2 characters that are not stopwords.  The Python set is modelled as a
duplicate-free list (first occurrences kept). -/
def extract_keywords (text : String) : List String :=
  ((tokenize (pyLower text)).filter
    (fun w => decide (2 < w.length) && !stopwords.contains w)).dedup

/-- Python `_keyword_overlap`: Jaccard similarity of the two keyword sets, `0` when
either set is empty.  `Rat.divInt` is exact division (it equals `(↑len / ↑len : ℚ)`,
see `keyword_overlap_eq_div`). -/
def keyword_overlap (text1 text2 : String) : ℚ :=
  let keywords1 := extract_keywords text1
  let keywords2 := extract_keywords text2
  if keywords1.isEmpty || keywords2.isEmpty then 0
  else
    let inter := keywords1.filter (fun w => keywords2.contains w)
    let union := (keywords1 ++ keywords2).dedup
    if union.isEmpty then 0
    else Rat.divInt inter.length union.length

/-- One entry of the flat candidate pool of `bind_evidence` (also the shape
of an external evidence item: `{text, source_ref, source_type}`). -/
structure Source where
  text : String
  source_ref : String
  source_type : String
deriving DecidableEq, Repr

/-- One step of the best-match scan in `bind_evidence`:
`if score > best_score and score > 0.2: update`. -/
def scanStep (claimText : String) (acc : Option Source × ℚ) (s : Source) :
    Option Source × ℚ :=
  let score := keyword_overlap claimText s.text
  if acc.2 < score ∧ Rat.divInt 1 5 < score then (some s, score) else acc

/-- The inner loop over `evidence_sources` for one claim: starting from
`best_match = None, best_score = 0.0`, keep the first source whose score
strictly improves on the current best and strictly exceeds `0.2`. -/
def scanBest (claimText : String) (sources : List Source) : Option Source :=
  (sources.foldl (scanStep claimText) (none, 0)).1

/-! ### The candidate pool and the binding pass (`bind_evidence`) -/

/-- An issue record from the GitHub bundle; `number` is kept as the string
that the f-string `f"issue:{issue.get('number')}"` renders. -/
structure Issue where
  title : String
  body : String
  number : String
deriving DecidableEq, Repr

/-- The milestone record; an absent milestone is the one with empty
`description` (the code only tests `milestone.get("description")` for
truthiness). -/
structure Milestone where
  description : String
  number : String
deriving DecidableEq, Repr

/-- The bundle dict as read by `bind_evidence` plus the `evidence_items` key
that `SupervisorHook._bind_evidence` writes into it.  `bind_evidence` itself
never reads `evidenceItems`. -/
structure Bundle where
  issues : List Issue
  milestone : Milestone
  evidenceItems : List Source
deriving DecidableEq, Repr

/-- The empty bundle `{}`. -/
def Bundle.empty : Bundle := ⟨[], ⟨"", ""⟩, []⟩

/-- The evidence source that `bind_evidence` derives from one `observation`
trace event: `payload.get("result") or payload.get("data")` must be a
non-empty dict holding a `title` and/or `body` key. -/
def observationSource (e : Event) : Option Source :=
  if e.type == EventType.observation then
    let result := if e.payload.result.isTruthy then e.payload.result else e.payload.data
    match result with
    | .pdict entries =>
      if entries.isEmpty then none
      else
        let textParts :=
          (match dictLookup entries "title" with | some t => [t] | none => []) ++
          (match dictLookup entries "body" with | some b => [b] | none => [])
        if textParts.isEmpty then none
        else some ⟨String.intercalate " " textParts, "trace:" ++ e.ts, "tool_call"⟩
    | _ => none
  else none

/-- The flat candidate pool of `bind_evidence`: bundle issues, then the
milestone description (if truthy), then the qualifying `observation`
events.  Note the pool never draws on `bundle.evidenceItems`. -/
def buildPool (events : List Event) (bundle : Bundle) : List Source :=
  bundle.issues.map
      (fun i => ⟨i.title ++ " " ++ i.body, "issue:" ++ i.number, "issue"⟩)
    ++ (if bundle.milestone.description ≠ "" then
          [⟨bundle.milestone.description,
            "milestone:" ++ bundle.milestone.number, "milestone"⟩]
        else [])
    ++ events.filterMap observationSource

/-- The per-claim loop of `bind_evidence`, threading `evidence_counter` and
the graph: on a match, create `evidence_<n>`, add it, link it, collect it. -/
def bindLoop (pool : List Source) :
    List Claim → Nat → EvidenceGraph → EvidenceGraph × List Evidence
  | [], _, g => (g, [])
  | c :: rest, counter, g =>
    match scanBest c.text pool with
    | none => bindLoop pool rest counter g
    | some s =>
      let n := counter + 1
      let evidenceId := "evidence_" ++ toString n
      let ev : Evidence := ⟨evidenceId, strTake s.text 200, s.source_ref, s.source_type⟩
      let g1 := (g.add_evidence ev).link_support c.id evidenceId
      let res := bindLoop pool rest n g1
      (res.1, ev :: res.2)

/-- Python `bind_evidence(claims, trace_events, bundle, graph)`, returning the
mutated graph together with the `evidence_list` the function returns. -/
def bind_evidence (claims : List Claim) (events : List Event) (bundle : Bundle)
    (g : EvidenceGraph) : EvidenceGraph × List Evidence :=
  bindLoop (buildPool events bundle) claims 0 g

/-- Python `SupervisorHook._bind_evidence`: skip when the graph has no claims;
otherwise build the bundle argument — `{"evidence_items": ...}` when an
evidence source is configured, else the stored bundle (`None`/`{}` both
mean the empty bundle) — and run `bind_evidence` over all claims. -/
def hookBindEvidence (events : List Event) (evidenceSource : Option (List Source))
    (bundle : Option Bundle) (g : EvidenceGraph) : EvidenceGraph × List Evidence :=
  if (dictValues g.claims).isEmpty then (g, [])
  else
    let b : Bundle :=
      match evidenceSource with
      | some items => ⟨[], ⟨"", ""⟩, items⟩
      | none => match bundle with
        | some bb => bb
        | none => Bundle.empty
    bind_evidence (dictValues g.claims) events b g

/-! ### Claim extraction (`sentinel/evidence/claims.py`) -/

/-- An ASCII `\s` character (also the characters Python `str.strip`
removes). -/
def isWs (c : Char) : Bool :=
  c == ' ' || c == '\t' || c == '\n' || c == '\r' || c == '\x0b' || c == '\x0c'

/-- Does `s` occur as a prefix of the character list `l`? -/
def startsWithStr (l : List Char) (s : String) : Bool :=
  s.toList.isPrefixOf l

/-- Python `str.strip()` on a character list. -/
def stripChars (l : List Char) : List Char :=
  ((l.dropWhile isWs).reverse.dropWhile isWs).reverse

/-- The section-header classifier: `re.match` of the six patterns of
`section_patterns` against the (lowercased) line, tried in dict insertion
order, first match wins.  Each pattern is `#+` then `\s*` then one of the
listed word alternatives as a prefix (`re.match` anchors at the line start
only; nothing anchors the end, and the optional trailing `s` of e.g.
`Goals?` never affects whether a prefix match exists). -/
def matchSectionChars (l : List Char) : Option String :=
  if (l.takeWhile (· == '#')).isEmpty then none
  else
    let r := (l.dropWhile (· == '#')).dropWhile isWs
    if startsWithStr r "goal" || startsWithStr r "objective" then some "Goals"
    else if startsWithStr r "non-goal" || startsWithStr r "nongoal"
        || startsWithStr r "out of scope" then some "Non-goals"
    else if startsWithStr r "scope" then some "Scope"
    else if startsWithStr r "metric" || startsWithStr r "success metric" then some "Metrics"
    else if startsWithStr r "risk" then some "Risks"
    else if startsWithStr r "rollout" || startsWithStr r "launch plan"
        || startsWithStr r "deployment" then some "Rollout"
    else none

/-- Which of the six sections does this line open, if any? -/
def lineSection (line : String) : Option String :=
  matchSectionChars (line.toList.map Char.toLower)

/-- Sentence-terminal punctuation, the class `[.!?]`. -/
def isSentPunct (c : Char) : Bool :=
  c == '.' || c == '!' || c == '?'

/-- Python `re.split(r"[.!?]+\s+", ...)`: a delimiter is a maximal run of
sentence punctuation immediately followed by at least one whitespace
character (both runs are consumed; a shorter punctuation run can never
match, since the character after it is again punctuation, not
whitespace).  `cur` is the current fragment reversed; `pend` is a pending
punctuation run (reversed) that still may turn into a delimiter;
`skipping` means we are inside the `\s+` tail of a delimiter (there `cur`
and `pend` are empty). -/
def splitSentencesGo : List Char → List Char → List Char → Bool → List (List Char)
  | [], cur, pend, _ => [(pend ++ cur).reverse]
  | c :: rest, cur, pend, skipping =>
    if skipping then
      if isWs c then splitSentencesGo rest [] [] true
      else if isSentPunct c then splitSentencesGo rest [] [c] false
      else splitSentencesGo rest [c] [] false
    else
      if isSentPunct c then splitSentencesGo rest cur (c :: pend) false
      else if isWs c && !pend.isEmpty then
        cur.reverse :: splitSentencesGo rest [] [] true
      else splitSentencesGo rest (c :: (pend ++ cur)) [] false

/-- All sentence-like fragments of a line. -/
def splitSentences (l : List Char) : List (List Char) :=
  splitSentencesGo l [] [] false

/-- Python `pathlib.PurePath.stem`: the final path component without its last
suffix (`name[:i]` for `i = name.rfind('.')` when `0 < i < len(name)-1`). -/
def pathStem (p : String) : String :=
  let cs := (splitOnChar '/' p.toList []).getLastD []
  let n := cs.length
  match ((List.range n).filter (fun i => cs.getD i ' ' == '.')).getLast? with
  | some i => if 0 < i ∧ i < n - 1 then String.mk (cs.take i) else String.mk cs
  | none => String.mk cs

/-- The severity branch of the extraction loop
(`if current_section in ["Goals", "Scope", "Metrics", "Rollout"] ...`). -/
def severityOfSection (sec : String) : String :=
  if sec == "Goals" || sec == "Scope" || sec == "Metrics" || sec == "Rollout" then "HIGH"
  else if sec == "Risks" then "MEDIUM"
  else "LOW"

/-- The inner `for sentence in sentences` loop: strip each fragment, keep it
when longer than 20 characters, and number the surviving claims with the
running `claim_counter`. -/
def claimsOfFrags (stem sec path : String) (ln : Nat) :
    List (List Char) → Nat → List Claim × Nat
  | [], counter => ([], counter)
  | f :: fs, counter =>
    let sentence := stripChars f
    if 20 < sentence.length then
      let c : Claim :=
        ⟨stem ++ "_claim_" ++ toString (counter + 1), String.mk sentence, sec,
          severityOfSection sec, ln, path⟩
      let res := claimsOfFrags stem sec path ln fs (counter + 1)
      (c :: res.1, res.2)
    else claimsOfFrags stem sec path ln fs counter

/-- The line loop of `extract_claims_from_artifact`: update the
`current_section` cursor on a header match, and while a section is active
split the stripped line into fragments and harvest claims. -/
def processLines (stem path : String) :
    List (Nat × String) → Option String → Nat → List Claim
  | [], _, _ => []
  | (ln, line) :: rest, curSec, counter =>
    let curSec2 := match lineSection line with
      | some s => some s
      | none => curSec
    match curSec2 with
    | none => processLines stem path rest none counter
    | some sec =>
      let frags := splitSentences (stripChars line.toList)
      let res := claimsOfFrags stem sec path ln frags counter
      res.1 ++ processLines stem path rest (some sec) res.2

/-- Claim extraction from the text of an artifact file
(`content.split("\n")`, 1-based line numbers). -/
def extract_claims_from_content (path content : String) : List Claim :=
  processLines (pathStem path) path
    (((splitOnChar '\n' content.toList []).map String.mk).enumFrom 1) none 0

/-- The observable state of a file: missing, existing but unreadable, or
readable with the given text.  `Path.exists()` is `true` for an unreadable
file (its `stat` succeeds); `open()` then raises `PermissionError`. -/
inductive FileState where
  | missing
  | unreadable
  | content (text : String)
deriving DecidableEq, Repr

/-- Python `extract_claims_from_artifact(artifact_path)` over an explicit
filesystem.  The Python code returns `[]` when `artifact_path.exists()` is
false and otherwise opens the file, so an existing but unreadable file
raises (modelled as `Except.error`). -/
def extract_claims_from_artifact (fs : String → FileState) (path : String) :
    Except String (List Claim) :=
  match fs path with
  | .missing => Except.ok []
  | .unreadable => Except.error "PermissionError"
  | .content text => Except.ok (extract_claims_from_content path text)

/-! ### Boundary detection (`sentinel/boundaries/detect.py`)

The two section regexes have the shape
`^#+\s*HEAD(.*?)(?=^#+|\Z)` with `MULTILINE | DOTALL | IGNORECASE`.
`re.search` finds the leftmost line-start position where `#+` (a maximal
hash run), `\s*` (a maximal whitespace run — backtracking cannot stop
short of a non-whitespace character, and the run may cross newlines) and
the head keyword match; the non-greedy body then extends to the first
position that is the start of a `#`-line, or to the end of the string.
The preliminary `re.search(r"^#+\s*HEAD", ...)` check succeeds exactly
when the full regex does, so only the latter is modelled. -/

/-- Matches `#+\s*(?:metrics?|success metrics?)` at a line-start suffix of
the lowercased content and returns the suffix where the body starts
(the greedy `s?` consumes a trailing `s`). -/
def matchMetricsHeader (l : List Char) : Option (List Char) :=
  if (l.takeWhile (· == '#')).isEmpty then none
  else
    let r := (l.dropWhile (· == '#')).dropWhile isWs
    if startsWithStr r "metric" then
      some (match r.drop 6 with | 's' :: tail => tail | other => other)
    else if startsWithStr r "success metric" then
      some (match r.drop 14 with | 's' :: tail => tail | other => other)
    else none

/-- Matches `#+\s*scope` at a line-start suffix, returning the body
suffix. -/
def matchScopeHeader (l : List Char) : Option (List Char) :=
  if (l.takeWhile (· == '#')).isEmpty then none
  else
    let r := (l.dropWhile (· == '#')).dropWhile isWs
    if startsWithStr r "scope" then some (r.drop 5) else none

/-- Scans the content left to right for the leftmost line-start position
where the header matcher succeeds (`^` of `re.MULTILINE`: position 0 or
right after a newline).  `atStart` says whether the current position is a
line start. -/
def searchHeader (f : List Char → Option (List Char)) :
    List Char → Bool → Option (List Char)
  | [], _ => none
  | c :: rest, atStart =>
    if atStart then
      match f (c :: rest) with
      | some bodyStart => some bodyStart
      | none => searchHeader f rest (c == '\n')
    else searchHeader f rest (c == '\n')

/-- The non-greedy body `(.*?)(?=^#+|\Z)`: everything up to (and
including) the first newline that is followed by a `#`, or the whole
remainder.  (The body never begins at a line start, since the header
keyword just preceded it.) -/
def bodyChars : List Char → List Char
  | [] => []
  | c :: rest =>
    if c == '\n' && (match rest with | d :: _ => d == '#' | [] => false) then [c]
    else c :: bodyChars rest

/-- A percentage hit of `\d+%`: some digit whose run is immediately
followed by `%`. -/
def hasPercentFrom : List Char → Bool
  | [] => false
  | c :: rest =>
    (c.isDigit && (match rest.dropWhile Char.isDigit with
      | '%' :: _ => true
      | _ => false))
    || hasPercentFrom rest

/-- A count-with-unit hit of `\d+\s*(?:users?|requests?|ms|seconds?)`:
some digit whose run, after the following whitespace run, is followed by
one of the unit words (the optional plural `s` never decides whether a
match exists). -/
def hasCountUnitFrom : List Char → Bool
  | [] => false
  | c :: rest =>
    (c.isDigit &&
      (let u := (rest.dropWhile Char.isDigit).dropWhile isWs
       startsWithStr u "user" || startsWithStr u "request"
         || startsWithStr u "ms" || startsWithStr u "second"))
    || hasCountUnitFrom rest

/-- Python `re.search(r"\d+%|\d+\s*(?:users?|requests?|ms|seconds?)", ...)` on the
(lowercased) metrics body: at each position the alternation tries the
percentage branch, then the count-with-unit branch. -/
def hasMeasurable : List Char → Bool
  | [] => false
  | c :: rest =>
    (c.isDigit &&
      ((match rest.dropWhile Char.isDigit with
        | '%' :: _ => true
        | _ => false)
       || (let u := (rest.dropWhile Char.isDigit).dropWhile isWs
           startsWithStr u "user" || startsWithStr u "request"
             || startsWithStr u "ms" || startsWithStr u "second")))
    || hasMeasurable rest

/-- A hit of `trade.?off|out of scope|not included|excluded|limitation`
starting exactly here (`.?` is any single non-newline character — the
search regex is compiled without `DOTALL`). -/
def tradeoffAt (l : List Char) : Bool :=
  (startsWithStr l "trade" &&
    (startsWithStr (l.drop 5) "off"
      || (match l.drop 5 with
          | d :: tail => d != '\n' && startsWithStr tail "off"
          | [] => false)))
  || startsWithStr l "out of scope" || startsWithStr l "not included"
  || startsWithStr l "excluded" || startsWithStr l "limitation"

/-- Python `re.search` of the tradeoff pattern anywhere in the (lowercased) scope
body. -/
def hasTradeoffs : List Char → Bool
  | [] => false
  | c :: rest => tradeoffAt (c :: rest) || hasTradeoffs rest

/-- Python `needle in haystack` (Python substring test). -/
def containsSub : List Char → String → Bool
  | [], s => s.toList.isPrefixOf []
  | c :: rest, s => startsWithStr (c :: rest) s || containsSub rest s

/-- A boundary event (`sentinel/boundaries/detect.py`, `BoundaryEvent`). -/
structure BoundaryEvent where
  type : String
  sectionName : String
  claim_id : String
  rationale : String
deriving DecidableEq, Repr

/-- The `empty_metrics` check on the lowercased content of one artifact
file. -/
def metricsBoundaries (cl : List Char) : List BoundaryEvent :=
  match searchHeader matchMetricsHeader cl true with
  | some bodyStart =>
    let metricsContent := stripChars (bodyChars bodyStart)
    if hasMeasurable metricsContent then []
    else [⟨"empty_metrics", "Metrics", "",
            "Metrics section exists but lacks measurable indicators"⟩]
  | none => []

/-- The `missing_tradeoffs` check on the lowercased content of one artifact
file. -/
def scopeBoundaries (cl : List Char) : List BoundaryEvent :=
  match searchHeader matchScopeHeader cl true with
  | some bodyStart =>
    let scopeContent := stripChars (bodyChars bodyStart)
    if !hasTradeoffs scopeContent && containsSub scopeContent "in"
        && containsSub scopeContent "out" then
      [⟨"missing_tradeoffs", "Scope", "",
         "Scope section mentions in/out but lacks explicit tradeoffs"⟩]
    else []
  | none => []

/-- The `empty_metrics` and `missing_tradeoffs` checks run on the content of
one artifact file, in the order the code appends them. -/
def artifactFileBoundaries (content : String) : List BoundaryEvent :=
  metricsBoundaries (content.toList.map Char.toLower)
    ++ scopeBoundaries (content.toList.map Char.toLower)

/-- The per-event part of the artifact loop: only `artifact` events with a
truthy `path` whose file exists (and is readable) contribute. -/
def eventArtifactBoundaries (fsv : String → Option String) (e : Event) :
    List BoundaryEvent :=
  if e.type == EventType.artifact then
    match e.payload.path with
    | some p =>
      if p ≠ "" then
        match fsv p with
        | some content => artifactFileBoundaries content
        | none => []
      else []
    | none => []
  else []

/-- Python `detect_boundaries(trace_events, graph, current_artifacts)`.  The
`current_artifacts` argument of the Python function is never read.  The
float comparison `len(obs) < len(calls) * 0.3` is taken exactly. -/
def detect_boundaries (fsv : String → Option String) (events : List Event)
    (g : EvidenceGraph) : List BoundaryEvent :=
  let missing := (g.uncovered_claims "HIGH").map (fun c =>
    ⟨"missing_evidence", c.sectionName, c.id,
      "HIGH severity claim in " ++ c.sectionName ++ " has no supporting evidence"⟩)
  let artifactBs := events.flatMap (eventArtifactBoundaries fsv)
  let toolCalls := events.filter (fun e => e.type == EventType.tool_call)
  let lowRate :=
    if 20 < toolCalls.length then
      let observations := events.filter (fun e => e.type == EventType.observation)
      -- `len(obs) < len(calls) * 0.3`, written in exact cross-multiplied form
      if 10 * observations.length < 3 * toolCalls.length then
        [⟨"low_evidence_rate", "", "",
           "Agent made " ++ toString toolCalls.length
             ++ " tool calls but few resulted in evidence binding"⟩]
      else []
    else []
  missing ++ artifactBs ++ lowRate

/-! ### The supervisor policy (`sentinel/interventions/policy.py`) -/

/-- Python `InterventionType` (a closed string enum). -/
inductive InterventionType where
  | REQUEST_EVIDENCE
  | REQUEST_OPTIONS
  | REQUEST_RISKS
  | REQUEST_METRICS
  | ESCALATE
deriving DecidableEq, Repr

/-- A suggested tool call `{tool, params}` with string-rendered params. -/
structure ToolCall where
  tool : String
  params : List (String × String)
deriving DecidableEq, Repr

/-- An intervention (`sentinel/interventions/types.py`). -/
structure Intervention where
  type : InterventionType
  target_id : String
  rationale : String
  suggested_next_steps : List String
  suggested_tool_calls : List ToolCall
deriving DecidableEq, Repr

/-- The ESCALATE intervention for three or more uncovered HIGH claims. -/
def escalateMultipleClaims (n : Nat) : Intervention :=
  ⟨.ESCALATE, "multiple_claims",
    toString n ++ " HIGH severity claims lack evidence",
    ["Review uncovered claims",
     "Gather additional evidence from GitHub issues",
     "Consider reducing scope or clarifying requirements"], []⟩

/-- The REQUEST_EVIDENCE intervention for the first uncovered HIGH claim. -/
def requestEvidenceIntervention (c : Claim) : Intervention :=
  ⟨.REQUEST_EVIDENCE, c.id,
    "HIGH severity claim in " ++ c.sectionName ++ " needs evidence",
    ["Fetch issue details related to: " ++ strTake c.text 50 ++ "...",
     "Search GitHub issues for relevant keywords",
     "Review milestone description"],
    [⟨"github_fetch_issue", [("query", strTake c.text 100)]⟩]⟩

/-- The REQUEST_METRICS intervention for an `empty_metrics` boundary. -/
def requestMetricsIntervention (b : BoundaryEvent) : Intervention :=
  ⟨.REQUEST_METRICS, b.sectionName, b.rationale,
    ["Add measurable success metrics",
     "Include specific targets (e.g., \x2795% uptime\x27, \x271000 users\x27)"], []⟩

/-- The REQUEST_OPTIONS intervention for a `missing_tradeoffs` boundary. -/
def requestOptionsIntervention (b : BoundaryEvent) : Intervention :=
  ⟨.REQUEST_OPTIONS, b.sectionName, b.rationale,
    ["Explicitly list what\x27s out of scope",
     "Explain tradeoffs and alternatives considered"], []⟩

/-- The ESCALATE intervention for an unproductive agent. -/
def escalateToolLimit (toolCallCount evidenceCount : Nat) : Intervention :=
  ⟨.ESCALATE, "tool_call_limit",
    "Agent made " ++ toString toolCallCount ++ " tool calls but only found "
      ++ toString evidenceCount ++ " evidence items",
    ["Review agent\x27s tool usage",
     "Consider if agent is stuck in a loop",
     "Check if GitHub data is sufficient"], []⟩

/-- The per-run supervisor state (`Supervisor.__init__`): the graph handle,
the persistent `tool_call_count`, and `interventions_issued`.  Mirroring
each intervention into the trace store is an external effect (the event
carries a wall-clock timestamp) and is not part of this state. -/
structure SupervisorState where
  graph : EvidenceGraph
  toolCallCount : Nat
  interventionsIssued : List Intervention
deriving Repr

/-- Is this one of the two boundary types the policy's loop acts on?
(`missing_evidence` and `low_evidence_rate` signals are skipped.) -/
def isActionableBoundary (b : BoundaryEvent) : Bool :=
  b.type == "empty_metrics" || b.type == "missing_tradeoffs"

/-- Python `Supervisor.analyze_step(trace_events, current_artifacts)`: update the
tool-call counter, detect boundaries, then walk the rule ladder, emitting
at most one intervention (`_emit_intervention` appends it to the issued
history). -/
def analyze_step (fsv : String → Option String) (st : SupervisorState)
    (events : List Event) : SupervisorState × Option Intervention :=
  let tc := st.toolCallCount
    + (events.filter (fun e => e.type == EventType.tool_call)).length
  let emit : Intervention → SupervisorState × Option Intervention := fun i =>
    (⟨st.graph, tc, st.interventionsIssued ++ [i]⟩, some i)
  let boundaries := detect_boundaries fsv events st.graph
  let uncovered := st.graph.uncovered_claims "HIGH"
  match uncovered with
  | c :: _ =>
    if 3 ≤ uncovered.length then emit (escalateMultipleClaims uncovered.length)
    else emit (requestEvidenceIntervention c)
  | [] =>
    match boundaries.find? isActionableBoundary with
    | some b =>
      if b.type == "empty_metrics" then emit (requestMetricsIntervention b)
      else emit (requestOptionsIntervention b)
    | none =>
      if 50 < tc ∧ (dictValues st.graph.evidence).length < 5 then
        emit (escalateToolLimit tc (dictValues st.graph.evidence).length)
      else (⟨st.graph, tc, st.interventionsIssued⟩, none)

/-! ## Theorems -/

/-- The freshly appended `supports` edge satisfies its own membership
test. -/
lemma isSupportsEdge_self (evidenceId claimId : String) :
    isSupportsEdge evidenceId claimId ⟨"supports", evidenceId, claimId⟩ = true := by
  simp [isSupportsEdge]

/-- C8: `link_support` is idempotent on the supports relation: for any graph
containing both endpoints, inserting a `supports` edge for an
(evidence_id, claim_id) pair that already has one is a no-op, so at most one
`supports` edge ever exists between a given evidence and claim, and linking
the same pair twice leaves the edge count unchanged. -/
theorem link_support_idempotent (g : EvidenceGraph) (claimId evidenceId : String) :
    ((g.link_support claimId evidenceId).link_support claimId evidenceId
        = g.link_support claimId evidenceId)
    ∧ ((g.link_support claimId evidenceId).link_support claimId evidenceId).edges.length
        = (g.link_support claimId evidenceId).edges.length
    ∧ (g.edges.countP (isSupportsEdge evidenceId claimId) ≤ 1 →
        (g.link_support claimId evidenceId).edges.countP
            (isSupportsEdge evidenceId claimId) ≤ 1) := by
  have hidem : (g.link_support claimId evidenceId).link_support claimId evidenceId
      = g.link_support claimId evidenceId := by
    by_cases h1 : dictContains g.claims claimId
    · by_cases h2 : dictContains g.evidence evidenceId
      · by_cases h3 : g.edges.any (isSupportsEdge evidenceId claimId)
        · simp [EvidenceGraph.link_support, h1, h2, h3]
        · simp [EvidenceGraph.link_support, h1, h2, h3, isSupportsEdge_self]
      · simp [EvidenceGraph.link_support, h1, h2]
    · simp [EvidenceGraph.link_support, h1]
  refine ⟨hidem, by rw [hidem], ?_⟩
  intro hcount
  by_cases h1 : dictContains g.claims claimId
  · by_cases h2 : dictContains g.evidence evidenceId
    · by_cases h3 : g.edges.any (isSupportsEdge evidenceId claimId)
      · simpa [EvidenceGraph.link_support, h1, h2, h3] using hcount
      · have hzero : g.edges.countP (isSupportsEdge evidenceId claimId) = 0 := by
          rw [List.countP_eq_zero]
          intro e he hpe
          exact h3 (List.any_eq_true.mpr ⟨e, he, hpe⟩)
        simp [EvidenceGraph.link_support, h1, h2, h3, List.countP_append, hzero,
          isSupportsEdge_self]
    · simpa [EvidenceGraph.link_support, h1, h2] using hcount
  · simpa [EvidenceGraph.link_support, h1] using hcount

/-- Witness for C8 on a concrete graph holding both endpoints. -/
theorem link_support_idempotent_witness :
    let c : Claim := ⟨"c1", "text", "Goals", "HIGH", 1, "p.md"⟩
    let ev : Evidence := ⟨"e1", "snippet", "issue:1", "issue"⟩
    let g := (EvidenceGraph.empty.add_claim c).add_evidence ev
    ((g.link_support "c1" "e1").link_support "c1" "e1" = g.link_support "c1" "e1")
    ∧ (g.edges.countP (isSupportsEdge "e1" "c1") ≤ 1 →
        (g.link_support "c1" "e1").edges.countP (isSupportsEdge "e1" "c1") ≤ 1) := by
  refine ⟨(link_support_idempotent _ "c1" "e1").1, ?_⟩
  exact (link_support_idempotent _ "c1" "e1").2.2

/-- C7 counterexample: on an artifact file that exists but is unreadable,
`extract_claims_from_artifact` propagates the read error instead of
returning an empty claim list (only the `exists()` case is handled). -/
theorem extract_claims_unreadable_raises :
    extract_claims_from_artifact (fun _ => FileState.unreadable) "docs/prd.md"
      ≠ Except.ok [] := by
  simp [extract_claims_from_artifact]

/-- C7 (amended): for every artifact path whose file is missing, claim
extraction returns an empty claim list rather than raising an error. -/
theorem extract_claims_missing_file (fs : String → FileState) (path : String)
    (h : fs path = FileState.missing) :
    extract_claims_from_artifact fs path = Except.ok [] := by
  simp [extract_claims_from_artifact, h]

/-- Witness for the amended C7. -/
theorem extract_claims_missing_file_witness :
    extract_claims_from_artifact (fun _ => FileState.missing) "docs/prd.md"
      = Except.ok [] :=
  extract_claims_missing_file (fun _ => FileState.missing) "docs/prd.md" rfl

/-- Modelled from the spec: the severity order LOW < MEDIUM < HIGH, as a
rank. -/
def specSeverityRank (s : String) : Nat :=
  if s = "HIGH" then 3 else if s = "MEDIUM" then 2 else 1

/-- C5: `uncovered_claims(min_severity)` returns exactly the claims whose
severity is at least `min_severity` in the order LOW < MEDIUM < HIGH and
that have no `supports` edge targeting their id, in insertion order of the
claim map; in particular a claim with an incoming `supports` edge never
appears in `uncovered_claims("HIGH")`. -/
theorem uncovered_claims_spec (g : EvidenceGraph) (minSeverity : String)
    (hms : minSeverity = "LOW" ∨ minSeverity = "MEDIUM" ∨ minSeverity = "HIGH")
    (hsev : ∀ c ∈ dictValues g.claims,
      c.severity = "LOW" ∨ c.severity = "MEDIUM" ∨ c.severity = "HIGH") :
    (g.uncovered_claims minSeverity = (dictValues g.claims).filter (fun c =>
        decide (specSeverityRank minSeverity ≤ specSeverityRank c.severity)
          && !(g.edges.any (fun e => e.type == "supports" && e.to_id == c.id))))
    ∧ (∀ c ∈ g.uncovered_claims "HIGH", ∀ e ∈ g.edges,
        ¬(e.type = "supports" ∧ e.to_id = c.id)) := by
  constructor
  · unfold EvidenceGraph.uncovered_claims
    apply List.filter_congr
    intro c hc
    rcases hsev c hc with h | h | h <;> rcases hms with h2 | h2 | h2 <;>
      simp [h, h2, severityOrderGet, specSeverityRank, EvidenceGraph.hasSupport]
  · intro c hc e he ⟨hty, hto⟩
    unfold EvidenceGraph.uncovered_claims at hc
    rw [List.mem_filter] at hc
    have hsup : g.hasSupport c.id = false := by
      have h2 := hc.2
      simp only [Bool.and_eq_true, Bool.not_eq_true'] at h2
      exact h2.2
    rw [EvidenceGraph.hasSupport] at hsup
    have : g.edges.any (fun e => e.type == "supports" && e.to_id == c.id) = true :=
      List.any_eq_true.mpr ⟨e, he, by simp [hty, hto]⟩
    rw [hsup] at this
    exact Bool.false_ne_true this

/-- Witness for C5: one covered and one uncovered HIGH claim. -/
theorem uncovered_claims_spec_witness :
    let c1 : Claim := ⟨"c1", "covered claim", "Goals", "HIGH", 1, "p.md"⟩
    let c2 : Claim := ⟨"c2", "uncovered claim", "Scope", "HIGH", 2, "p.md"⟩
    let ev : Evidence := ⟨"e1", "snippet", "issue:1", "issue"⟩
    let g := ((((EvidenceGraph.empty.add_claim c1).add_claim c2).add_evidence
      ev).link_support "c1" "e1")
    g.uncovered_claims "HIGH" = (dictValues g.claims).filter (fun c =>
      decide (specSeverityRank "HIGH" ≤ specSeverityRank c.severity)
        && !(g.edges.any (fun e => e.type == "supports" && e.to_id == c.id))) := by
  intro c1 c2 ev g
  exact (uncovered_claims_spec g "HIGH" (by simp) (by decide)).1

/-- C9: for every extracted claim, severity is a function of its section
only: Goals, Scope, Metrics and Rollout claims are HIGH, Risks claims are
MEDIUM, and claims of any other section are LOW. -/
theorem extracted_severity_spec (path content : String) (c : Claim)
    (hc : c ∈ extract_claims_from_content path content) :
    c.severity = (if c.sectionName ∈ (["Goals", "Scope", "Metrics", "Rollout"] : List String)
      then "HIGH" else if c.sectionName = "Risks" then "MEDIUM" else "LOW") := by
  have hsev : ∀ (stem sec p : String) (ln : Nat) (frags : List (List Char)) (n : Nat),
      ∀ c2 ∈ (claimsOfFrags stem sec p ln frags n).1,
        c2.sectionName = sec ∧ c2.severity = severityOfSection sec := by
    intro stem sec p ln frags
    induction frags with
    | nil => intro n c2 hc2; simp [claimsOfFrags] at hc2
    | cons f fs ih =>
      intro n c2 hc2
      rw [claimsOfFrags] at hc2
      by_cases hlen : 20 < (stripChars f).length
      · simp only [hlen, if_true, List.mem_cons] at hc2
        rcases hc2 with h | h
        · subst h; exact ⟨rfl, rfl⟩
        · exact ih _ c2 h
      · simp only [hlen, if_false] at hc2
        exact ih _ c2 hc2
  have hmain : ∀ (stem p : String) (lines : List (Nat × String))
      (cur : Option String) (n : Nat), ∀ c2 ∈ processLines stem p lines cur n,
        c2.severity = severityOfSection c2.sectionName := by
    intro stem p lines
    induction lines with
    | nil => intro cur n c2 hc2; simp [processLines] at hc2
    | cons hd tl ih =>
      intro cur n c2 hc2
      rw [processLines] at hc2
      rcases hmatch : (match lineSection hd.2 with
          | some s => some s
          | none => cur) with - | sec
      · rw [hmatch] at hc2
        exact ih _ _ c2 hc2
      · rw [hmatch] at hc2
        rcases List.mem_append.mp hc2 with h | h
        · rcases hsev stem sec p hd.1 _ _ c2 h with ⟨hs, hv⟩
          rw [hv, hs]
        · exact ih _ _ c2 h
  have h1 := hmain (pathStem path) path
    (((splitOnChar '\n' content.toList []).map String.mk).enumFrom 1) none 0 c hc
  rw [h1, severityOfSection]
  rcases eq_or_ne c.sectionName "Goals" with h | hG
  · simp [h]
  rcases eq_or_ne c.sectionName "Scope" with h | hS
  · simp [h]
  rcases eq_or_ne c.sectionName "Metrics" with h | hM
  · simp [h]
  rcases eq_or_ne c.sectionName "Rollout" with h | hR
  · simp [h]
  rcases eq_or_ne c.sectionName "Risks" with h | hK
  · simp [h, hG, hS, hM, hR]
  · simp [hG, hS, hM, hR, hK]

/-- Witness for C9 on a concrete document. -/
theorem extracted_severity_spec_witness :
    (⟨"prd_claim_1", "Ship feature X to 10% of users by Q3.", "Goals", "HIGH", 2,
        "out/prd.md"⟩ : Claim) ∈ extract_claims_from_content "out/prd.md"
        "# Goals\nShip feature X to 10% of users by Q3.\n## Metrics\nTBD."
    ∧ ("HIGH" : String) = (if ("Goals" : String) ∈
        (["Goals", "Scope", "Metrics", "Rollout"] : List String)
      then "HIGH" else if ("Goals" : String) = "Risks" then "MEDIUM" else "LOW") := by
  refine ⟨by decide, ?_⟩
  exact extracted_severity_spec "out/prd.md"
    "# Goals\nShip feature X to 10% of users by Q3.\n## Metrics\nTBD."
    ⟨"prd_claim_1", "Ship feature X to 10% of users by Q3.", "Goals", "HIGH", 2,
      "out/prd.md"⟩ (by decide)

/-- C2: whenever `analyze_step` finds at least 3 uncovered HIGH claims it
returns the ESCALATE intervention targeting `multiple_claims` whose
rationale states the count, short-circuiting every other rule (so never
REQUEST_EVIDENCE); with exactly 1 or 2 uncovered HIGH claims it returns a
REQUEST_EVIDENCE intervention targeting the first uncovered claim. -/
theorem analyze_step_priority (fsv : String → Option String)
    (st : SupervisorState) (events : List Event) :
    (3 ≤ (st.graph.uncovered_claims "HIGH").length →
      (analyze_step fsv st events).2
          = some (escalateMultipleClaims (st.graph.uncovered_claims "HIGH").length)
        ∧ (escalateMultipleClaims (st.graph.uncovered_claims "HIGH").length).type
          = InterventionType.ESCALATE
        ∧ (escalateMultipleClaims (st.graph.uncovered_claims "HIGH").length).target_id
          = "multiple_claims"
        ∧ (escalateMultipleClaims (st.graph.uncovered_claims "HIGH").length).rationale
          = toString (st.graph.uncovered_claims "HIGH").length
              ++ " HIGH severity claims lack evidence")
    ∧ (∀ c cs, st.graph.uncovered_claims "HIGH" = c :: cs → cs.length ≤ 1 →
      (analyze_step fsv st events).2 = some (requestEvidenceIntervention c)
        ∧ (requestEvidenceIntervention c).type = InterventionType.REQUEST_EVIDENCE
        ∧ (requestEvidenceIntervention c).target_id = c.id) := by
  constructor
  · intro h3
    rcases hu : st.graph.uncovered_claims "HIGH" with - | ⟨c, cs⟩
    · rw [hu] at h3; simp at h3
    · rw [hu] at h3
      refine ⟨?_, rfl, rfl, rfl⟩
      simp only [analyze_step, hu]
      rw [if_pos h3]
  · intro c cs hu hlen
    refine ⟨?_, rfl, rfl⟩
    have hnot : ¬(3 ≤ (c :: cs).length) := by
      simp only [List.length_cons]
      omega
    simp only [analyze_step, hu]
    rw [if_neg hnot]

/-- Witness for C2: a graph with three uncovered HIGH claims escalates, a
graph with one uncovered HIGH claim requests evidence. -/
theorem analyze_step_priority_witness :
    let mk : Nat → Claim := fun i =>
      ⟨"c" ++ toString i, "claim number " ++ toString i, "Goals", "HIGH", i, "p.md"⟩
    let g3 := ((EvidenceGraph.empty.add_claim (mk 1)).add_claim (mk 2)).add_claim (mk 3)
    let g1 := EvidenceGraph.empty.add_claim (mk 1)
    ((analyze_step (fun _ => none) ⟨g3, 0, []⟩ []).2
        = some (escalateMultipleClaims (g3.uncovered_claims "HIGH").length))
    ∧ ((analyze_step (fun _ => none) ⟨g1, 0, []⟩ []).2
        = some (requestEvidenceIntervention (mk 1))) := by
  intro mk g3 g1
  constructor
  · exact ((analyze_step_priority (fun _ => none) ⟨g3, 0, []⟩ []).1 (by decide)).1
  · exact ((analyze_step_priority (fun _ => none) ⟨g1, 0, []⟩ []).2 (mk 1) []
      (by decide) (by decide)).1

/-- C3: `analyze_step` always adds the number of `tool_call` events in the
window to the persistent counter; and when no claim rule and no actionable
boundary fires, the counter exceeds 50 and the graph holds fewer than 5
evidence items, it returns the ESCALATE intervention targeting
`tool_call_limit`. -/
theorem analyze_step_tool_call_limit (fsv : String → Option String)
    (st : SupervisorState) (events : List Event) :
    ((analyze_step fsv st events).1.toolCallCount
        = st.toolCallCount
          + (events.filter (fun e => e.type == EventType.tool_call)).length)
    ∧ (st.graph.uncovered_claims "HIGH" = [] →
       (detect_boundaries fsv events st.graph).find? isActionableBoundary = none →
       50 < st.toolCallCount
          + (events.filter (fun e => e.type == EventType.tool_call)).length →
       (dictValues st.graph.evidence).length < 5 →
       (analyze_step fsv st events).2
          = some (escalateToolLimit
              (st.toolCallCount
                + (events.filter (fun e => e.type == EventType.tool_call)).length)
              (dictValues st.graph.evidence).length)) := by
  constructor
  · simp only [analyze_step]
    rcases hu : st.graph.uncovered_claims "HIGH" with - | ⟨c, cs⟩
    · rcases hf : (detect_boundaries fsv events st.graph).find? isActionableBoundary
        with - | b
      · dsimp only
        split <;> rfl
      · dsimp only
        split <;> rfl
    · dsimp only
      split <;> rfl
  · intro hu hf hcount hev
    simp only [analyze_step, hu, hf]
    rw [if_pos ⟨hcount, hev⟩]

/-- Witness for C3: driving the counter to 51 via 51 `tool_call` events with
an empty graph yields the `tool_call_limit` escalation. -/
theorem analyze_step_tool_call_limit_witness :
    (analyze_step (fun _ => none) ⟨EvidenceGraph.empty, 0, []⟩
        (List.replicate 51 ⟨EventType.tool_call, "t0", Payload.empty⟩)).2
      = some (escalateToolLimit 51 0) := by
  exact (analyze_step_tool_call_limit (fun _ => none) ⟨EvidenceGraph.empty, 0, []⟩
    (List.replicate 51 ⟨EventType.tool_call, "t0", Payload.empty⟩)).2
    (by decide) (by decide) (by decide) (by decide)

/-- A claim whose text coincides with the external evidence item below
(keyword overlap 1.0). -/
def extAuthClaim : Claim :=
  ⟨"c1", "authentication login tokens", "Goals", "HIGH", 1, "prd.md"⟩

/-- An externally supplied evidence item exactly matching `extAuthClaim`. -/
def extAuthItem : Source :=
  ⟨"authentication login tokens", "ext:1", "external"⟩

/-- The graph holding just `extAuthClaim`. -/
def extAuthGraph : EvidenceGraph :=
  EvidenceGraph.empty.add_claim extAuthClaim

/-- C1: the hook wraps externally supplied evidence items as
`{"evidence_items": ...}`, but `bind_evidence` only reads the `issues` and
`milestone` keys, so the items never enter the candidate pool: even a
perfectly matching external item (score 1.0) binds nothing, while the same
item would bind were it in the pool. -/
theorem hook_drops_external_evidence_items :
    keyword_overlap extAuthClaim.text extAuthItem.text = 1
    ∧ hookBindEvidence [] (some [extAuthItem]) none extAuthGraph = (extAuthGraph, [])
    ∧ (bindLoop [extAuthItem] [extAuthClaim] 0 extAuthGraph).2
        = [⟨"evidence_1", "authentication login tokens", "ext:1", "external"⟩] :=
  ⟨by decide, by decide, by decide⟩

/-- The per-event predicate of C6, phrased with the two separate measurable
patterns: an `artifact` event with a truthy path whose file exists, whose
content has a Metrics/Success Metrics section, and whose section body
(stripped) contains neither a percentage pattern nor a count-with-unit
pattern. -/
def emptyMetricsTrigger (fsv : String → Option String) (e : Event) : Bool :=
  e.type == EventType.artifact &&
    (match e.payload.path with
     | some p =>
       (p != "") &&
         (match fsv p with
          | some content =>
            (match searchHeader matchMetricsHeader (content.toList.map Char.toLower) true with
             | some bodyStart =>
               !hasPercentFrom (stripChars (bodyChars bodyStart))
                 && !hasCountUnitFrom (stripChars (bodyChars bodyStart))
             | none => false)
          | none => false)
     | none => false)

/-- The single search of the code equals the disjunction of the two
separate pattern scans. -/
lemma hasMeasurable_eq_or (l : List Char) :
    hasMeasurable l = (hasPercentFrom l || hasCountUnitFrom l) := by
  induction l with
  | nil => rfl
  | cons c rest ih =>
    rw [hasMeasurable, hasPercentFrom, hasCountUnitFrom, ih]
    cases c.isDigit <;>
      cases hasPercentFrom rest <;>
        cases hasCountUnitFrom rest <;>
          simp [Bool.and_or_distrib_left]

/-- The scope check never produces an `empty_metrics` boundary. -/
lemma scopeBoundaries_no_empty_metrics (cl : List Char) :
    (scopeBoundaries cl).countP (fun b => b.type == "empty_metrics") = 0 := by
  rw [scopeBoundaries]
  rcases searchHeader matchScopeHeader cl true with - | bodyStart
  · rfl
  · dsimp only
    split
    · rfl
    · rfl

/-- The metrics check produces exactly one `empty_metrics` boundary when a
metrics section exists without measurable content. -/
lemma metricsBoundaries_count (cl : List Char) :
    (metricsBoundaries cl).countP (fun b => b.type == "empty_metrics")
      = (match searchHeader matchMetricsHeader cl true with
         | some bodyStart =>
           if !hasPercentFrom (stripChars (bodyChars bodyStart))
               && !hasCountUnitFrom (stripChars (bodyChars bodyStart)) then 1 else 0
         | none => 0) := by
  rw [metricsBoundaries]
  rcases searchHeader matchMetricsHeader cl true with - | bodyStart
  · rfl
  · dsimp only
    rw [hasMeasurable_eq_or]
    cases hpc : hasPercentFrom (stripChars (bodyChars bodyStart)) <;>
      cases hcu : hasCountUnitFrom (stripChars (bodyChars bodyStart)) <;> rfl

/-- Per event, the artifact checks contribute exactly one `empty_metrics`
boundary when the trigger holds and none otherwise. -/
lemma eventArtifactBoundaries_empty_metrics_count
    (fsv : String → Option String) (e : Event) :
    (eventArtifactBoundaries fsv e).countP (fun b => b.type == "empty_metrics")
      = if emptyMetricsTrigger fsv e then 1 else 0 := by
  rw [eventArtifactBoundaries, emptyMetricsTrigger]
  by_cases hty : (e.type == EventType.artifact) = true
  · rw [hty]
    rcases e.payload.path with - | p
    · simp
    · dsimp only
      by_cases hp : p = ""
      · simp [hp]
      · have hp2 : (p != "") = true := by simpa using hp
        rw [hp2, if_pos hp, Bool.true_and]
        rcases hfs : fsv p with - | content
        · simp
        · dsimp only
          simp only [artifactFileBoundaries, eq_self_iff_true, if_true, Bool.true_and,
            List.countP_append, scopeBoundaries_no_empty_metrics,
            metricsBoundaries_count, Nat.add_zero]
          rcases searchHeader matchMetricsHeader (content.toList.map Char.toLower) true
            with - | bodyStart
          · rfl
          · dsimp only
  · simp only [Bool.not_eq_true] at hty
    simp [hty]

/-- C6: across a whole detection pass, the number of `empty_metrics`
boundary events equals the number of artifact events in the window whose
existing file has a Metrics/Success Metrics section whose body shows
neither a percentage nor a count-with-unit pattern — one boundary per such
event, and only for such events. -/
theorem empty_metrics_boundary_spec (fsv : String → Option String)
    (events : List Event) (g : EvidenceGraph) :
    ((detect_boundaries fsv events g).countP (fun b => b.type == "empty_metrics")
      = events.countP (emptyMetricsTrigger fsv))
    ∧ (∀ l, hasMeasurable l = (hasPercentFrom l || hasCountUnitFrom l)) := by
  refine ⟨?_, hasMeasurable_eq_or⟩
  rw [detect_boundaries]
  simp only [List.countP_append]
  have hmissing : ((g.uncovered_claims "HIGH").map (fun c =>
      (⟨"missing_evidence", c.sectionName, c.id,
        "HIGH severity claim in " ++ c.sectionName
          ++ " has no supporting evidence"⟩ : BoundaryEvent))).countP
        (fun b => b.type == "empty_metrics") = 0 := by
    rw [List.countP_eq_zero]
    intro b hb
    rcases List.mem_map.mp hb with ⟨c, -, hc⟩
    rw [← hc]
    exact Bool.false_ne_true
  have hflat : ∀ evs : List Event,
      (evs.flatMap (eventArtifactBoundaries fsv)).countP
          (fun b => b.type == "empty_metrics")
        = evs.countP (emptyMetricsTrigger fsv) := by
    intro evs
    induction evs with
    | nil => rfl
    | cons e rest ih =>
      rw [List.flatMap_cons, List.countP_append, List.countP_cons, ih,
        eventArtifactBoundaries_empty_metrics_count]
      split <;> omega
  have hlow : ∀ l : List Event, (if 20 < (l.filter
        (fun e => e.type == EventType.tool_call)).length then
      if 10 * (l.filter (fun e => e.type == EventType.observation)).length
          < 3 * (l.filter (fun e => e.type == EventType.tool_call)).length then
        [(⟨"low_evidence_rate", "", "",
          "Agent made "
            ++ toString (l.filter (fun e => e.type == EventType.tool_call)).length
            ++ " tool calls but few resulted in evidence binding"⟩ : BoundaryEvent)]
      else []
    else []).countP (fun b => b.type == "empty_metrics") = 0 := by
    intro l
    split
    · split
      · rfl
      · rfl
    · rfl
  rw [hmissing, hflat, hlow]
  omega

/-- The value `Rat.divInt 1 5` is the threshold `0.2`. -/
lemma divInt_one_five : Rat.divInt 1 5 = (1 : ℚ)/5 := by
  rw [Rat.divInt_eq_div]
  norm_num

/-- Here `keyword_overlap` is the Jaccard quotient written with `ℚ` division
(the inner guard `if not union` of the code is unreachable when the outer
guard passes). -/
lemma keyword_overlap_eq_div (t1 t2 : String) :
    keyword_overlap t1 t2 =
      (if (extract_keywords t1).isEmpty || (extract_keywords t2).isEmpty then 0
       else (((extract_keywords t1).filter
              (fun w => (extract_keywords t2).contains w)).length : ℚ)
          / ((((extract_keywords t1) ++ (extract_keywords t2)).dedup).length : ℚ)) := by
  rw [keyword_overlap]
  by_cases hemp : ((extract_keywords t1).isEmpty || (extract_keywords t2).isEmpty) = true
  · rw [if_pos hemp, if_pos hemp]
  · rw [if_neg hemp, if_neg hemp]
    have h1 : extract_keywords t1 ≠ [] := by
      intro h
      rw [h] at hemp
      simp at hemp
    have hu : ((extract_keywords t1 ++ extract_keywords t2).dedup) ≠ [] := by
      intro h
      rcases List.exists_mem_of_ne_nil _ h1 with ⟨w, hw⟩
      have : w ∈ (extract_keywords t1 ++ extract_keywords t2).dedup := by
        rw [List.mem_dedup]
        exact List.mem_append.mpr (Or.inl hw)
      rw [h] at this
      exact List.not_mem_nil w this
    rw [if_neg (by simpa [List.isEmpty_iff] using hu)]
    rw [Rat.divInt_eq_div]
    push_cast
    rfl

/-- The invariant maintained along the best-match scan of `bind_evidence`:
with no match yet every seen source scored at most the threshold; with a
current best, it is the first source attaining the running maximum, which
exceeds the threshold. -/
def scanInv (text : String) (processed : List Source) : Option Source × ℚ → Prop
  | (none, b) => b = 0 ∧ ∀ s ∈ processed, keyword_overlap text s.text ≤ Rat.divInt 1 5
  | (some s, b) => b = keyword_overlap text s.text ∧ Rat.divInt 1 5 < b
      ∧ ∃ l1 l2, processed = l1 ++ s :: l2
        ∧ (∀ s2 ∈ l1, keyword_overlap text s2.text < b)
        ∧ (∀ s2 ∈ l2, keyword_overlap text s2.text ≤ b)

/-- One scan step preserves the invariant. -/
lemma scanStep_inv (text : String) (processed : List Source)
    (acc : Option Source × ℚ) (x : Source) (h : scanInv text processed acc) :
    scanInv text (processed ++ [x]) (scanStep text acc x) := by
  have hpos : (0 : ℚ) < Rat.divInt 1 5 := by
    rw [divInt_one_five]; norm_num
  rcases acc with ⟨o, b⟩
  rcases o with - | s
  · rcases h with ⟨hb, hall⟩
    subst hb
    rw [scanStep]
    by_cases hc : (0 : ℚ) < keyword_overlap text x.text
        ∧ Rat.divInt 1 5 < keyword_overlap text x.text
    · rw [if_pos hc]
      refine ⟨rfl, hc.2, processed, [], rfl, ?_, by simp⟩
      intro s2 hs2
      exact lt_of_le_of_lt (hall s2 hs2) hc.2
    · rw [if_neg hc]
      refine ⟨rfl, ?_⟩
      intro s2 hs2
      rcases List.mem_append.mp hs2 with h2 | h2
      · exact hall s2 h2
      · rw [List.mem_singleton] at h2
        subst h2
        by_contra hgt
        push_neg at hgt
        exact hc ⟨lt_trans hpos hgt, hgt⟩
  · rcases h with ⟨hb, hgt, l1, l2, hsplit, hl1, hl2⟩
    rw [scanStep]
    by_cases hc : b < keyword_overlap text x.text
        ∧ Rat.divInt 1 5 < keyword_overlap text x.text
    · rw [if_pos hc]
      refine ⟨rfl, hc.2, processed, [], rfl, ?_, by simp⟩
      intro s2 hs2
      rw [hsplit] at hs2
      rcases List.mem_append.mp hs2 with h2 | h2
      · exact lt_trans (hl1 s2 h2) (hb ▸ hc.1)
      · rcases List.mem_cons.mp h2 with h3 | h3
        · subst h3
          exact hb ▸ hc.1
        · exact lt_of_le_of_lt (hl2 s2 h3) (hb ▸ hc.1)
    · rw [if_neg hc]
      refine ⟨hb, hgt, l1, l2 ++ [x], by rw [hsplit]; simp, hl1, ?_⟩
      intro s2 hs2
      rcases List.mem_append.mp hs2 with h2 | h2
      · exact hl2 s2 h2
      · rw [List.mem_singleton] at h2
        subst h2
        rcases not_and_or.mp hc with h3 | h3
        · exact le_of_not_lt h3
        · exact le_trans (le_of_not_lt h3) (le_of_lt hgt)

/-- The invariant holds after folding the whole source list. -/
lemma scanFold_inv (text : String) (l : List Source) :
    ∀ (processed : List Source) (acc : Option Source × ℚ),
      scanInv text processed acc →
      scanInv text (processed ++ l) (l.foldl (scanStep text) acc) := by
  induction l with
  | nil => intro processed acc h; simpa using h
  | cons x xs ih =>
    intro processed acc h
    rw [List.foldl_cons]
    have h3 := ih (processed ++ [x]) _ (scanStep_inv text processed acc x h)
    simpa using h3

/-- C4: the binder scores sources by Jaccard similarity of keyword sets
(1.0 for identical non-empty sets, 0 for disjoint sets), accepts only the
first source attaining the maximal score and only when that score strictly
exceeds 0.2, and a claim binds evidence exactly when such a source
exists. -/
theorem binder_threshold_spec :
    (∀ t1 t2 : String, (extract_keywords t1).toFinset = (extract_keywords t2).toFinset →
        extract_keywords t1 ≠ [] → keyword_overlap t1 t2 = 1)
    ∧ (∀ t1 t2 : String, (∀ w ∈ extract_keywords t1, w ∉ extract_keywords t2) →
        keyword_overlap t1 t2 = 0)
    ∧ (∀ (text : String) (sources : List Source) (s : Source),
        scanBest text sources = some s →
        (1 : ℚ)/5 < keyword_overlap text s.text
        ∧ ∃ l1 l2, sources = l1 ++ s :: l2
            ∧ (∀ s2 ∈ l1, keyword_overlap text s2.text < keyword_overlap text s.text)
            ∧ (∀ s2 ∈ l2, keyword_overlap text s2.text ≤ keyword_overlap text s.text))
    ∧ (∀ (text : String) (sources : List Source), scanBest text sources = none →
        ∀ s2 ∈ sources, keyword_overlap text s2.text ≤ (1 : ℚ)/5)
    ∧ (∀ (c : Claim) (events : List Event) (bundle : Bundle) (g : EvidenceGraph),
        (bind_evidence [c] events bundle g).2 = []
          ↔ scanBest c.text (buildPool events bundle) = none) := by
  have hscan : ∀ (text : String) (sources : List Source),
      scanInv text sources (sources.foldl (scanStep text) (none, 0)) := by
    intro text sources
    have h0 : scanInv text [] ((none : Option Source), (0 : ℚ)) := ⟨rfl, by simp⟩
    simpa using scanFold_inv text sources [] (none, 0) h0
  refine ⟨?_, ?_, ?_, ?_, ?_⟩
  · intro t1 t2 hfin h1
    have hsub : ∀ w ∈ extract_keywords t1, w ∈ extract_keywords t2 := by
      intro w hw
      have := List.mem_toFinset.mpr hw
      rw [hfin] at this
      exact List.mem_toFinset.mp this
    have h2 : extract_keywords t2 ≠ [] := by
      intro h
      rcases List.exists_mem_of_ne_nil _ h1 with ⟨w, hw⟩
      have := hsub w hw
      rw [h] at this
      exact List.not_mem_nil w this
    rw [keyword_overlap_eq_div]
    rw [if_neg (by simp [List.isEmpty_iff, h1, h2])]
    have hfilter : (extract_keywords t1).filter
        (fun w => (extract_keywords t2).contains w) = extract_keywords t1 := by
      rw [List.filter_eq_self]
      intro w hw
      exact List.elem_eq_true_of_mem (hsub w hw)
    have hdedup : ((extract_keywords t1 ++ extract_keywords t2).dedup).length
        = (extract_keywords t1).length := by
      have hcard : ((extract_keywords t1 ++ extract_keywords t2).toFinset).card
          = ((extract_keywords t1).toFinset).card := by
        rw [List.toFinset_append, hfin, Finset.union_self]
      have hself : (extract_keywords t1).dedup = extract_keywords t1 :=
        List.Nodup.dedup (by unfold extract_keywords; exact List.nodup_dedup _)
      rw [← List.card_toFinset, hcard, List.card_toFinset, hself]
    have hne : ((extract_keywords t1).length : ℚ) ≠ 0 := by
      have hpos := List.length_pos.mpr h1
      exact_mod_cast Nat.pos_iff_ne_zero.mp hpos
    rw [hfilter, hdedup, div_self hne]
  · intro t1 t2 hdisj
    rw [keyword_overlap_eq_div]
    by_cases hemp : ((extract_keywords t1).isEmpty || (extract_keywords t2).isEmpty) = true
    · rw [if_pos hemp]
    · rw [if_neg hemp]
      have hfilter : (extract_keywords t1).filter
          (fun w => (extract_keywords t2).contains w) = [] := by
        rw [List.filter_eq_nil_iff]
        intro w hw
        simpa using fun hmem => hdisj w hw hmem
      rw [hfilter]
      simp
  · intro text sources s hs
    have h := hscan text sources
    rw [scanBest] at hs
    rcases hres : sources.foldl (scanStep text) (none, 0) with ⟨o, b⟩
    rw [hres] at hs h
    dsimp only at hs
    subst hs
    rcases h with ⟨hb, hgt, l1, l2, hsplit, hl1, hl2⟩
    subst hb
    rw [← divInt_one_five]
    exact ⟨hgt, l1, l2, hsplit, hl1, hl2⟩
  · intro text sources hs s2 hs2
    have h := hscan text sources
    rw [scanBest] at hs
    rcases hres : sources.foldl (scanStep text) (none, 0) with ⟨o, b⟩
    rw [hres] at hs h
    dsimp only at hs
    subst hs
    rw [← divInt_one_five]
    exact h.2 s2 hs2
  · intro c events bundle g
    rw [bind_evidence, bindLoop]
    rcases hs : scanBest c.text (buildPool events bundle) with - | s
    · simp [bindLoop]
    · dsimp only
      constructor
      · intro h
        exact absurd h (by simp)
      · intro h
        exact absurd h (by simp)

/-- Witness for C4: identical keyword sets score 1.0; disjoint keyword sets
score 0. -/
theorem binder_threshold_spec_witness :
    keyword_overlap "authentication login" "login authentication" = 1
    ∧ keyword_overlap "alpha beta" "gamma delta" = 0 := by
  constructor
  · exact binder_threshold_spec.1 "authentication login" "login authentication"
      (by decide) (by decide)
  · exact binder_threshold_spec.2.1 "alpha beta" "gamma delta" (by decide)

/-- The ids of the evidence created by the per-claim loop are
`evidence_<n+1>, evidence_<n+2>, ...` — they depend only on the claims and
the pool, never on the graph. -/
lemma bindLoop_ids (pool : List Source) (claims : List Claim) :
    ∀ (n : Nat) (g : EvidenceGraph),
      ((bindLoop pool claims n g).2).map (fun ev => ev.id)
        = (List.range ((claims.filter
            (fun c => (scanBest c.text pool).isSome)).length)).map
            (fun i => "evidence_" ++ toString (n + 1 + i)) := by
  induction claims with
  | nil => intro n g; rfl
  | cons c rest ih =>
    intro n g
    rw [bindLoop]
    rcases hs : scanBest c.text pool with - | s
    · dsimp only
      rw [ih n g, List.filter_cons]
      simp [hs]
    · dsimp only
      rw [List.map_cons, ih (n + 1)
        ((g.add_evidence ⟨"evidence_" ++ toString (n + 1), strTake s.text 200,
          s.source_ref, s.source_type⟩).link_support c.id
            ("evidence_" ++ toString (n + 1)))]
      rw [List.filter_cons]
      simp only [hs, Option.isSome_some, if_true, List.length_cons,
        List.range_succ_eq_map, List.map_cons, List.map_map]
      rw [Nat.add_zero]
      congr 1
      apply List.map_congr_left
      intro i hi
      have h : n + 1 + 1 + i = n + 1 + (i + 1) := by omega
      simp [Function.comp, h]

/-- Applying `dictInsert` on an existing key stores the new value under that key. -/
lemma dictLookup_dictInsert (m : List (String × α)) (k : String) (v : α) :
    dictLookup (dictInsert m k v) k = some v := by
  rw [dictInsert]
  by_cases hc : dictContains m k = true
  · rw [if_pos hc]
    rw [dictContains, List.any_eq_true] at hc
    induction m with
    | nil => simp at hc
    | cons hd tl ih =>
      rcases hc with ⟨p, hp, hpk⟩
      rw [List.map_cons]
      by_cases hhd : (hd.1 == k) = true
      · rw [if_pos hhd]
        rw [dictLookup]
        simp
      · rw [if_neg hhd]
        have hhd2 : (hd.1 == k) = false := by simpa using hhd
        rw [dictLookup, List.find?_cons, hhd2]
        rcases List.mem_cons.mp hp with h2 | h2
        · subst h2
          exact absurd hpk hhd
        · exact ih ⟨p, h2, hpk⟩
  · rw [if_neg hc]
    rw [dictContains] at hc
    induction m with
    | nil => rw [dictLookup]; simp
    | cons hd tl ih =>
      rw [List.cons_append, dictLookup, List.find?_cons]
      by_cases hhd : (hd.1 == k) = true
      · exact absurd (List.any_eq_true.mpr ⟨hd, List.mem_cons_self hd tl, hhd⟩) hc
      · have hhd2 : (hd.1 == k) = false := by simpa using hhd
        rw [hhd2]
        have htl : ¬tl.any (fun p => p.1 == k) = true := by
          intro h
          rcases List.any_eq_true.mp h with ⟨p, hp, hpk⟩
          exact hc (List.any_eq_true.mpr ⟨p, List.mem_cons_of_mem hd hp, hpk⟩)
        exact ih htl

/-- Applying `dictInsert` on an existing key keeps the map size. -/
lemma dictInsert_length_of_contains (m : List (String × α)) (k : String) (v : α)
    (hc : dictContains m k = true) :
    (dictInsert m k v).length = m.length := by
  rw [dictInsert, if_pos hc, List.length_map]

/-- The bundle used by the first binding pass in the C10 scenario. -/
def passOneBundle : Bundle := ⟨[⟨"authentication login tokens", "", "1"⟩], ⟨"", ""⟩, []⟩

/-- The bundle used by the second binding pass (a different issue, still
matching the claim). -/
def passTwoBundle : Bundle := ⟨[⟨"login tokens authentication extra", "", "2"⟩], ⟨"", ""⟩, []⟩

/-- C10: evidence ids restart at `evidence_1` on every binding pass no
matter what the graph already holds; `add_evidence` with a used id replaces
the stored record and never touches edges; hence a second pass over the
same graph overwrites the first pass's evidence records while the old
support edges keep pointing at the reused ids. -/
theorem evidence_id_reuse_spec :
    (∀ (claims : List Claim) (events : List Event) (bundle : Bundle) (g : EvidenceGraph),
        ((bind_evidence claims events bundle g).2).map (fun ev => ev.id)
          = (List.range ((claims.filter (fun c =>
              (scanBest c.text (buildPool events bundle)).isSome)).length)).map
              (fun i => "evidence_" ++ toString (i + 1)))
    ∧ (∀ (g : EvidenceGraph) (ev : Evidence),
        (g.add_evidence ev).edges = g.edges
        ∧ dictLookup (g.add_evidence ev).evidence ev.id = some ev
        ∧ (dictContains g.evidence ev.id = true →
            (g.add_evidence ev).evidence.length = g.evidence.length))
    ∧ (dictLookup (bind_evidence [extAuthClaim] [] passOneBundle extAuthGraph).1.evidence
          "evidence_1"
        = some ⟨"evidence_1", "authentication login tokens ", "issue:1", "issue"⟩)
    ∧ (dictLookup (bind_evidence [extAuthClaim] [] passTwoBundle
          (bind_evidence [extAuthClaim] [] passOneBundle extAuthGraph).1).1.evidence
          "evidence_1"
        = some ⟨"evidence_1", "login tokens authentication extra ", "issue:2", "issue"⟩)
    ∧ ((bind_evidence [extAuthClaim] [] passTwoBundle
          (bind_evidence [extAuthClaim] [] passOneBundle extAuthGraph).1).1.evidence.length
        = 1)
    ∧ ((bind_evidence [extAuthClaim] [] passTwoBundle
          (bind_evidence [extAuthClaim] [] passOneBundle extAuthGraph).1).1.edges
        = [⟨"supports", "evidence_1", "c1"⟩]) := by
  refine ⟨?_, ?_, by decide, by decide, by decide, by decide⟩
  · intro claims events bundle g
    rw [bind_evidence, bindLoop_ids]
    apply List.map_congr_left
    intro i hi
    rw [Nat.zero_add, Nat.add_comm 1 i]
  · intro g ev
    exact ⟨rfl, dictLookup_dictInsert g.evidence ev.id ev,
      fun hc => dictInsert_length_of_contains g.evidence ev.id ev hc⟩

/-- Witness for C10 at a graph that already stores the reused id. -/
theorem evidence_id_reuse_spec_witness :
    dictContains ((EvidenceGraph.empty.add_evidence
        ⟨"evidence_1", "old", "issue:9", "issue"⟩).evidence) "evidence_1" = true
    ∧ ((EvidenceGraph.empty.add_evidence
        ⟨"evidence_1", "old", "issue:9", "issue"⟩).add_evidence
          ⟨"evidence_1", "new", "issue:8", "issue"⟩).evidence.length
      = (EvidenceGraph.empty.add_evidence
          ⟨"evidence_1", "old", "issue:9", "issue"⟩).evidence.length := by
  refine ⟨by decide, ?_⟩
  exact (evidence_id_reuse_spec.2.1 (EvidenceGraph.empty.add_evidence
    ⟨"evidence_1", "old", "issue:9", "issue"⟩)
    ⟨"evidence_1", "new", "issue:8", "issue"⟩).2.2 (by decide)

end Sentinel
